import Mathlib

/-
Verification development for the LexiDeck repository.

The definitions below are shallow embeddings of the Python source:
  - scraper.py        : Scraper._standardize, SpanishDictScraper.translate (URL
                        construction), Scraper.rate_limited (the probe).
  - note_creator.py   : NoteCreator.rate_limited_create_notes, embedded as a
                        small-step interleaving machine over the shared state
                        (rate_limit_event, rate_limit_handling_event, semaphore).
  - app/main.py and src/main.py : the create_deck / main drain loop with its
                        note cap and the finally-block teardown.
  - src/dictionary.py : Dictionary.translate memoization.
-/

namespace LexiDeck

/-! Part 1: string normalization performed by the Retrieval Source
    (scraper.py lines 42-44 and 109-111). -/

/-- The punctuation characters removed by the regular expression
in Scraper._standardize (scraper.py line 43). -/
def punctChars : List Char := ['.', ',', ';', ':', '!', '?', '-']

/-- Embeds the re.sub step of Scraper._standardize: delete every occurrence
of the characters matched by the character class. -/
def removePunct (s : String) : String :=
  ⟨s.data.filter (fun c => !(punctChars.contains c))⟩

/-- Characters treated as whitespace by the Python str.strip method
(space, tab, newline, carriage return, vertical tab, form feed). -/
def isPyWhite (c : Char) : Bool :=
  c.toNat = 32 || c.toNat = 9 || c.toNat = 10 || c.toNat = 13 ||
  c.toNat = 11 || c.toNat = 12

/-- Embeds the Python str.strip call: remove leading and trailing whitespace.
Interior whitespace is left untouched. -/
def pyStrip (s : String) : String :=
  ⟨((s.data.dropWhile isPyWhite).reverse.dropWhile isPyWhite).reverse⟩

/-- Embeds the Python str.lower call (ASCII case folding, which is all the
scraper relies on). -/
def pyLower (s : String) : String :=
  ⟨s.data.map Char.toLower⟩

/-- Embeds Scraper._standardize (scraper.py lines 42-44): remove the listed
punctuation characters, then strip leading and trailing whitespace, then
lowercase. -/
def standardize (s : String) : String :=
  pyLower (pyStrip (removePunct s))

/-- Base URL of the SpanishDict scraper (scraper.py line 78). -/
def baseUrl : String := "https://www.spanishdict.com"

/-- Embeds the URL built by SpanishDictScraper.translate (scraper.py
line 110): the standardized word is interpolated into the translate path. -/
def translateUrl (w : String) : String :=
  baseUrl ++ "/translate/" ++ standardize w ++ "?langFrom=es"

/-- Normalization as the spec words it (strip punctuation, collapse
whitespace, lowercase). Defined from the words of the spec, to be compared
with the standardize function taken from the source. Collapsing turns every
maximal run of whitespace into a single space and drops outer whitespace. -/
def specNormalize (s : String) : String :=
  pyLower (String.intercalate " "
    ((((removePunct s).data.splitOnP isPyWhite).filter
        (fun w => !w.isEmpty)).map (fun w => (⟨w⟩ : String))))

/-! Part 2: the probe operation Scraper.rate_limited (scraper.py lines
66-71) acting on the combined orchestrator state. -/

/-- The process-wide backoff flags of the spec data model: the two
asyncio events held by NoteCreator (note_creator.py lines 17-19).
is_backoff_active mirrors the cleared rate_limit_event,
handler_in_progress mirrors the set rate_limit_handling_event. -/
structure BackoffState where
  is_backoff_active : Bool
  handler_in_progress : Bool
deriving DecidableEq

/-- The mutable fields of Scraper touched by rate_limited: the aiohttp
session and the request counter (scraper.py lines 18-21, 67-70). -/
structure ScraperState where
  sessionOpen : Bool
  requests_made : Nat
deriving DecidableEq

/-- The combined shared state visible to the probe: the scraper fields
plus the coordinator flags owned by NoteCreator. -/
structure SharedState where
  scraper : ScraperState
  backoff : BackoffState
deriving DecidableEq

/-- Embeds Scraper.rate_limited (scraper.py lines 66-71): reopen the
session if needed, count one request, and report whether the server
answered 429. The serverThrottled argument stands for the response status
of the GET to the base URL. The method reads and writes only scraper
fields; the coordinator flags are not referenced by its body. -/
def rate_limited (serverThrottled : Bool) (st : SharedState) : Bool × SharedState :=
  let sc := st.scraper
  let sc := if sc.sessionOpen then sc else ⟨true, sc.requests_made⟩
  (serverThrottled, ⟨⟨sc.sessionOpen, sc.requests_made + 1⟩, st.backoff⟩)

/-- Iterates the probe a given number of times, collecting the results. -/
def probeCalls (serverThrottled : Bool) : Nat → SharedState → List Bool × SharedState
  | 0, st => ([], st)
  | n + 1, st =>
    let p := rate_limited serverThrottled st
    let q := probeCalls serverThrottled n p.2
    (p.1 :: q.1, q.2)

/-! Part 3: Dictionary.translate (src/dictionary.py lines 24-29). -/

/-- Association-list lookup standing for the Python membership test and
indexing on the translations dict. Translations are represented by opaque
numeric identifiers. -/
def lookupTranslations (ts : List (String × List Nat)) (w : String) : Option (List Nat) :=
  (ts.find? (fun p => p.1 = w)).map (fun p => p.2)

/-- Embeds the Dictionary class of src/dictionary.py: an optional retriever
(modelled as the function the retriever computes per word), the memo table,
and a log of the words for which retriever.retrieve_translations was
actually invoked (for counting network calls). -/
structure Dictionary where
  retriever : Option (String → List Nat)
  translations : List (String × List Nat)
  callLog : List String

/-- Embeds Dictionary.translate (src/dictionary.py lines 24-29): on a memo
miss with no retriever return the empty list without caching; on a miss
with a retriever invoke it, store the result, and return it; on a hit
return the stored list. -/
def Dictionary.translate (d : Dictionary) (w : String) : List Nat × Dictionary :=
  match lookupTranslations d.translations w with
  | some ts => (ts, d)
  | none =>
    match d.retriever with
    | none => ([], d)
    | some f =>
      let ts := f w
      (ts, ⟨some f, (w, ts) :: d.translations, d.callLog ++ [w]⟩)

/-- Runs Dictionary.translate over a sequence of words, keeping the state. -/
def Dictionary.translateAll (d : Dictionary) : List String → Dictionary
  | [] => d
  | w :: ws => ((d.translate w).2).translateAll ws

/-- Invariant of the memo table: the retriever has been invoked at most
once per word, and every word it was invoked for is cached. -/
def DictInv (d : Dictionary) : Prop :=
  ∀ w, d.callLog.count w ≤ 1 ∧
    (w ∈ d.callLog → (lookupTranslations d.translations w).isSome = true)

/-! Part 4: the drain loop of the Result Collector (app/main.py lines
49-70, identical in shape to src/main.py lines 65-86). -/

/-- The outcome of awaiting one completed task in the drain loop. ok ns
carries the notes the task returned (ok [] also stands for the None
returned after a logged first-attempt error, since the loop only tests
falsiness); err is a task whose await re-raises an exception. -/
inductive TaskResult where
  | ok (notes : List Nat)
  | err
deriving DecidableEq

/-- How the for-loop over as_completed ended: every completion consumed,
the note cap broke out early, or an awaited task re-raised. Each carries
the accumulated notes and the number of completions awaited. -/
inductive DrainExit where
  | completed (notes : List Nat) (consumed : Nat)
  | capped (notes : List Nat) (consumed : Nat)
  | errored (notes : List Nat) (consumed : Nat)
deriving DecidableEq

/-- Accumulated notes of a drain exit. -/
def DrainExit.notes : DrainExit → List Nat
  | .completed ns _ => ns
  | .capped ns _ => ns
  | .errored ns _ => ns

/-- Number of completions awaited before the exit. -/
def DrainExit.consumed : DrainExit → Nat
  | .completed _ c => c
  | .capped _ c => c
  | .errored _ c => c

/-- Whether the drain loop was left by a propagating exception. -/
def DrainExit.isError : DrainExit → Bool
  | .errored _ _ => true
  | _ => false

/-- Embeds the try-block for-loop of create_deck (app/main.py lines
49-62): await the next completion in completion order (re-raising its
exception if it failed), count it, skip it if it yielded no notes,
otherwise extend the accumulator and break once a non-zero note limit is
reached or exceeded. -/
def drain (limit : Nat) (acc : List Nat) (consumed : Nat) : List TaskResult → DrainExit
  | [] => .completed acc consumed
  | .err :: _ => .errored acc consumed
  | .ok ns :: rest =>
    if ns.isEmpty then drain limit acc (consumed + 1) rest
    else if limit ≠ 0 ∧ limit ≤ acc.length + ns.length then
      .capped (acc ++ ns) (consumed + 1)
    else drain limit (acc ++ ns) (consumed + 1) rest

/-- The observable outcome of one create_deck call after the finally
block: the notes kept, completions consumed, tasks cancelled and then
awaited with return_exceptions set, the number of close_session calls
made, and whether an exception propagated out of the whole call. -/
structure RunOutcome where
  notes : List Nat
  consumed : Nat
  cancelled : Nat
  sessionCloses : Nat
  raised : Bool
deriving DecidableEq

/-- Embeds the finally block of create_deck (app/main.py lines 63-70):
whatever way the loop exited, the tasks not yet done are cancelled, those
cancelled tasks are awaited with return_exceptions set to true (so their
cancellation is suppressed and raised reflects only an exception of the
drain loop itself), and close_session is called once. doneAtExit is the
number of tasks already finished at that moment (at least the consumed
ones, possibly more that completed in the background). -/
def finalizeRun (total doneAtExit : Nat) (e : DrainExit) : RunOutcome :=
  ⟨e.notes, e.consumed, total - doneAtExit, 1, e.isError⟩

/-- Embeds one call of create_deck over the words whose tasks produce the
given results in completion order: run the drain loop from an empty
accumulator, then the finally block. -/
def runCreateDeck (limit : Nat) (results : List TaskResult) (doneAtExit : Nat) : RunOutcome :=
  finalizeRun results.length doneAtExit (drain limit [] 0 results)

/-- Notes that a list of task results would contribute in total. -/
def flatNotes (rs : List TaskResult) : List Nat :=
  rs.flatMap (fun r => match r with | .ok ns => ns | .err => [])

/-! Part 5: the rate-limited orchestrator as a small-step interleaving
machine, embedding NoteCreator.rate_limited_create_notes (note_creator.py
lines 58-79) under single-threaded cooperative scheduling. A step runs one
task from one suspension point to the next; everything between two awaits
of the Python coroutine is one atomic step. -/

/-- Control locations of one rate_limited_create_notes coroutine, one per
region between suspension points.
  start: before the semaphore acquire of the async-with (line 59).
  firstCall: holding a slot, awaiting the first create_notes (line 61).
  probing: leader inside the backoff sleep-probe loop (lines 64-71),
    entered by the atomic check-then-set of lines 63-67.
  retrying: awaiting the post-backoff create_notes retry (line 77).
  waiting: follower blocked on rate_limit_event.wait (line 76).
  done (some n): returned a list of n notes; done none: the generic except
    clause logged the error and the coroutine returned None (lines 78-79).
  failed: an exception propagated out of the coroutine.
  cancelled: the task was cancelled at a suspension point. -/
inductive TaskPC where
  | start
  | firstCall
  | probing
  | retrying
  | waiting
  | done (notes : Option Nat)
  | failed
  | cancelled
deriving DecidableEq

/-- One task of the dispatcher: its control location and how many times it
has invoked create_notes (its retrieval) so far. -/
structure TaskState where
  pc : TaskPC
  calls : Nat
deriving DecidableEq

/-- The shared orchestrator state: the rate_limit_handling_event flag, the
rate_limit_event flag (set means normal operation, cleared means backoff
active), the free slots of the semaphore, and the per-task states in
submission order. -/
structure OrchConfig where
  handling : Bool
  rlEvent : Bool
  semAvail : Nat
  tasks : List TaskState
deriving DecidableEq

/-- One cooperative step of the orchestrator: some task advances from its
current suspension point to the next. Nondeterministic outcomes of awaited
network calls (success, throttle, fault) and cancellation are separate
constructors. The stepping task sits between pre and post, so list
positions are preserved.
  acquire: the semaphore acquire of the async-with succeeds (line 59).
  firstSuccess: the first create_notes returns n notes (line 61).
  firstErr: the first create_notes raises a non-throttle exception, caught
    by the generic except clause which logs and returns None (lines 78-79).
  firstThrottleLead: the first create_notes raises RateLimitException and
    the handling flag is unset: lines 63-67 run atomically (no await
    between the is_set check and the set and clear), making this task the
    leader and clearing rate_limit_event.
  firstThrottleFollow: the first create_notes raises RateLimitException
    while the handling flag is set: the task heads for the event wait of
    line 76.
  probeStill: the leader probe returns true, the loop sleeps again
    (lines 69-71).
  probeClear: the leader probe returns false: the leader sets
    rate_limit_event, clears the handling flag (lines 72-73) and moves to
    the retry of line 77.
  probeRaise: the probe itself raises: nothing in lines 63-77 catches an
    exception thrown inside the except handler, so the coroutine unwinds
    (releasing only the semaphore) with both flags left as they were.
  followerWake: rate_limit_event.wait returns because the event is set
    (line 76), the follower moves to the retry of line 77.
  retrySuccess: the retry create_notes returns n notes (line 77).
  retryRaise: the retry create_notes raises (fresh throttle or any other
    exception): line 77 sits inside the except handler, so no clause of
    this try statement catches it and it propagates out of the coroutine.
  cancelStart/cancelFirst/cancelProbing/cancelRetrying/cancelWaiting: the
    task is cancelled at its current suspension point; past the acquire the
    async-with releases the slot while unwinding. -/
inductive OrchStep : OrchConfig → OrchConfig → Prop where
  | acquire (h rl s k pre post) :
      OrchStep ⟨h, rl, s + 1, pre ++ ⟨.start, k⟩ :: post⟩
               ⟨h, rl, s, pre ++ ⟨.firstCall, k⟩ :: post⟩
  | firstSuccess (h rl s k n pre post) :
      OrchStep ⟨h, rl, s, pre ++ ⟨.firstCall, k⟩ :: post⟩
               ⟨h, rl, s + 1, pre ++ ⟨.done (some n), k + 1⟩ :: post⟩
  | firstErr (h rl s k pre post) :
      OrchStep ⟨h, rl, s, pre ++ ⟨.firstCall, k⟩ :: post⟩
               ⟨h, rl, s + 1, pre ++ ⟨.done none, k + 1⟩ :: post⟩
  | firstThrottleLead (rl s k pre post) :
      OrchStep ⟨false, rl, s, pre ++ ⟨.firstCall, k⟩ :: post⟩
               ⟨true, false, s, pre ++ ⟨.probing, k + 1⟩ :: post⟩
  | firstThrottleFollow (rl s k pre post) :
      OrchStep ⟨true, rl, s, pre ++ ⟨.firstCall, k⟩ :: post⟩
               ⟨true, rl, s, pre ++ ⟨.waiting, k + 1⟩ :: post⟩
  | probeStill (h rl s k pre post) :
      OrchStep ⟨h, rl, s, pre ++ ⟨.probing, k⟩ :: post⟩
               ⟨h, rl, s, pre ++ ⟨.probing, k⟩ :: post⟩
  | probeClear (h rl s k pre post) :
      OrchStep ⟨h, rl, s, pre ++ ⟨.probing, k⟩ :: post⟩
               ⟨false, true, s, pre ++ ⟨.retrying, k⟩ :: post⟩
  | probeRaise (h rl s k pre post) :
      OrchStep ⟨h, rl, s, pre ++ ⟨.probing, k⟩ :: post⟩
               ⟨h, rl, s + 1, pre ++ ⟨.failed, k⟩ :: post⟩
  | followerWake (h s k pre post) :
      OrchStep ⟨h, true, s, pre ++ ⟨.waiting, k⟩ :: post⟩
               ⟨h, true, s, pre ++ ⟨.retrying, k⟩ :: post⟩
  | retrySuccess (h rl s k n pre post) :
      OrchStep ⟨h, rl, s, pre ++ ⟨.retrying, k⟩ :: post⟩
               ⟨h, rl, s + 1, pre ++ ⟨.done (some n), k + 1⟩ :: post⟩
  | retryRaise (h rl s k pre post) :
      OrchStep ⟨h, rl, s, pre ++ ⟨.retrying, k⟩ :: post⟩
               ⟨h, rl, s + 1, pre ++ ⟨.failed, k + 1⟩ :: post⟩
  | cancelStart (h rl s k pre post) :
      OrchStep ⟨h, rl, s, pre ++ ⟨.start, k⟩ :: post⟩
               ⟨h, rl, s, pre ++ ⟨.cancelled, k⟩ :: post⟩
  | cancelFirst (h rl s k pre post) :
      OrchStep ⟨h, rl, s, pre ++ ⟨.firstCall, k⟩ :: post⟩
               ⟨h, rl, s + 1, pre ++ ⟨.cancelled, k⟩ :: post⟩
  | cancelProbing (h rl s k pre post) :
      OrchStep ⟨h, rl, s, pre ++ ⟨.probing, k⟩ :: post⟩
               ⟨h, rl, s + 1, pre ++ ⟨.cancelled, k⟩ :: post⟩
  | cancelRetrying (h rl s k pre post) :
      OrchStep ⟨h, rl, s, pre ++ ⟨.retrying, k⟩ :: post⟩
               ⟨h, rl, s + 1, pre ++ ⟨.cancelled, k⟩ :: post⟩
  | cancelWaiting (h rl s k pre post) :
      OrchStep ⟨h, rl, s, pre ++ ⟨.waiting, k⟩ :: post⟩
               ⟨h, rl, s + 1, pre ++ ⟨.cancelled, k⟩ :: post⟩

/-- The startup state of create_deck with concurrency limit cap and n
submitted words: both events in their initial positions (rate_limit_event
set, handling event unset, note_creator.py lines 17-19), all semaphore
slots free, one task per word before its first suspension. -/
def initConfig (cap n : Nat) : OrchConfig :=
  ⟨false, true, cap, List.replicate n ⟨.start, 0⟩⟩

/-- Configurations the orchestrator can reach from startup. -/
def Reachable (cap n : Nat) (c : OrchConfig) : Prop :=
  Relation.ReflTransGen OrchStep (initConfig cap n) c

/-- A task holds the backoff-leader role while it runs the probe loop
with the handling flag it set (the handler_in_progress region between
line 64 and line 73). -/
def TaskPC.isLeader : TaskPC → Bool
  | .probing => true
  | _ => false

/-- A task holds a concurrency slot from a successful semaphore acquire
until the async-with releases it. -/
def TaskPC.holdsSlot : TaskPC → Bool
  | .firstCall => true
  | .probing => true
  | .retrying => true
  | .waiting => true
  | _ => false

/-- Number of tasks currently holding the leader role. -/
def leaderCount (c : OrchConfig) : Nat :=
  c.tasks.countP (fun t => t.pc.isLeader)

/-- Number of tasks currently holding a concurrency slot. -/
def slotCount (c : OrchConfig) : Nat :=
  c.tasks.countP (fun t => t.pc.holdsSlot)

/-- A task that has finished (by return, exception or cancellation). -/
def TaskPC.isTerminal : TaskPC → Bool
  | .done _ => true
  | .failed => true
  | .cancelled => true
  | _ => false

/-- The per-task projection of one orchestrator step, indexed by the
handling flag and the rate_limit_event value of the source configuration.
Each constructor mirrors the OrchStep constructor of the same name. -/
inductive PairStep : Bool → Bool → TaskState → TaskState → Prop where
  | acquire (h rl k) : PairStep h rl ⟨.start, k⟩ ⟨.firstCall, k⟩
  | firstSuccess (h rl k n) : PairStep h rl ⟨.firstCall, k⟩ ⟨.done (some n), k + 1⟩
  | firstErr (h rl k) : PairStep h rl ⟨.firstCall, k⟩ ⟨.done none, k + 1⟩
  | lead (rl k) : PairStep false rl ⟨.firstCall, k⟩ ⟨.probing, k + 1⟩
  | follow (rl k) : PairStep true rl ⟨.firstCall, k⟩ ⟨.waiting, k + 1⟩
  | probeStill (h rl k) : PairStep h rl ⟨.probing, k⟩ ⟨.probing, k⟩
  | probeClear (h rl k) : PairStep h rl ⟨.probing, k⟩ ⟨.retrying, k⟩
  | probeRaise (h rl k) : PairStep h rl ⟨.probing, k⟩ ⟨.failed, k⟩
  | wake (h k) : PairStep h true ⟨.waiting, k⟩ ⟨.retrying, k⟩
  | retrySuccess (h rl k n) : PairStep h rl ⟨.retrying, k⟩ ⟨.done (some n), k + 1⟩
  | retryRaise (h rl k) : PairStep h rl ⟨.retrying, k⟩ ⟨.failed, k + 1⟩
  | cancelStart (h rl k) : PairStep h rl ⟨.start, k⟩ ⟨.cancelled, k⟩
  | cancelFirst (h rl k) : PairStep h rl ⟨.firstCall, k⟩ ⟨.cancelled, k⟩
  | cancelProbing (h rl k) : PairStep h rl ⟨.probing, k⟩ ⟨.cancelled, k⟩
  | cancelRetrying (h rl k) : PairStep h rl ⟨.retrying, k⟩ ⟨.cancelled, k⟩
  | cancelWaiting (h rl k) : PairStep h rl ⟨.waiting, k⟩ ⟨.cancelled, k⟩

/-- The inductive invariant of the orchestrator: slots held plus free
semaphore permits equal the capacity, and the number of leading tasks is
bounded by the handling flag (so nobody leads while it is unset and at
most one task leads while it is set). -/
def OrchInv (cap : Nat) (c : OrchConfig) : Prop :=
  slotCount c + c.semAvail = cap ∧ leaderCount c ≤ c.handling.toNat

/-- The states a task can pass through from the moment it blocks on
rate_limit_event.wait with k retrievals made: it waits, then retries, and
the single retry decides its final state; cancellation can remove it at
either suspension point without a further retrieval. -/
def FollowTraj (k : Nat) (t : TaskState) : Prop :=
  t = ⟨.waiting, k⟩ ∨ t = ⟨.retrying, k⟩ ∨ (∃ n, t = ⟨.done (some n), k + 1⟩) ∨
    t = ⟨.failed, k + 1⟩ ∨ t = ⟨.cancelled, k⟩

/-- The orchestrator state after a leader aborted out of the probe loop:
the handling flag is still set, rate_limit_event is still cleared, and no
task is leading. -/
def StuckState (c : OrchConfig) : Prop :=
  c.handling = true ∧ c.rlEvent = false ∧ leaderCount c = 0

/-! Lemmas. -/

lemma countP_mid (p : TaskState → Bool) (pre post : List TaskState) (x : TaskState) :
    List.countP p (pre ++ x :: post) =
      List.countP p pre + List.countP p post + (if p x then 1 else 0) := by
  simp [List.countP_append, List.countP_cons]
  omega

lemma mid_pointwise {α : Type _} (pre post : List α) (x y : α) (i : Nat) :
    (pre ++ x :: post)[i]? = (pre ++ y :: post)[i]? ∨
      ((pre ++ x :: post)[i]? = some x ∧ (pre ++ y :: post)[i]? = some y) := by
  induction pre generalizing i with
  | nil =>
    cases i with
    | zero => exact Or.inr ⟨by simp, by simp⟩
    | succ j => exact Or.inl (by simp)
  | cons a pre ih =>
    cases i with
    | zero => exact Or.inl (by simp)
    | succ j => simpa using ih j

/-- Every orchestrator step preserves the task list length and changes at
most the stepping task, whose change is a PairStep under the source
configuration flags. -/
lemma step_pointwise {c c' : OrchConfig} (hst : OrchStep c c') :
    c'.tasks.length = c.tasks.length ∧
      ∀ i : Nat, c'.tasks[i]? = c.tasks[i]? ∨
        ∃ a b, c.tasks[i]? = some a ∧ c'.tasks[i]? = some b ∧
          PairStep c.handling c.rlEvent a b := by
  cases hst with
  | acquire h rl s k pre post =>
    refine ⟨by simp, fun i => ?_⟩
    rcases mid_pointwise pre post (⟨.start, k⟩ : TaskState) ⟨.firstCall, k⟩ i with
      heq | ⟨h1, h2⟩
    · exact Or.inl heq.symm
    · exact Or.inr ⟨_, _, h1, h2, PairStep.acquire h rl k⟩
  | firstSuccess h rl s k n pre post =>
    refine ⟨by simp, fun i => ?_⟩
    rcases mid_pointwise pre post (⟨.firstCall, k⟩ : TaskState) ⟨.done (some n), k + 1⟩ i with
      heq | ⟨h1, h2⟩
    · exact Or.inl heq.symm
    · exact Or.inr ⟨_, _, h1, h2, PairStep.firstSuccess h rl k n⟩
  | firstErr h rl s k pre post =>
    refine ⟨by simp, fun i => ?_⟩
    rcases mid_pointwise pre post (⟨.firstCall, k⟩ : TaskState) ⟨.done none, k + 1⟩ i with
      heq | ⟨h1, h2⟩
    · exact Or.inl heq.symm
    · exact Or.inr ⟨_, _, h1, h2, PairStep.firstErr h rl k⟩
  | firstThrottleLead rl s k pre post =>
    refine ⟨by simp, fun i => ?_⟩
    rcases mid_pointwise pre post (⟨.firstCall, k⟩ : TaskState) ⟨.probing, k + 1⟩ i with
      heq | ⟨h1, h2⟩
    · exact Or.inl heq.symm
    · exact Or.inr ⟨_, _, h1, h2, PairStep.lead rl k⟩
  | firstThrottleFollow rl s k pre post =>
    refine ⟨by simp, fun i => ?_⟩
    rcases mid_pointwise pre post (⟨.firstCall, k⟩ : TaskState) ⟨.waiting, k + 1⟩ i with
      heq | ⟨h1, h2⟩
    · exact Or.inl heq.symm
    · exact Or.inr ⟨_, _, h1, h2, PairStep.follow rl k⟩
  | probeStill h rl s k pre post =>
    refine ⟨by simp, fun i => ?_⟩
    exact Or.inl rfl
  | probeClear h rl s k pre post =>
    refine ⟨by simp, fun i => ?_⟩
    rcases mid_pointwise pre post (⟨.probing, k⟩ : TaskState) ⟨.retrying, k⟩ i with
      heq | ⟨h1, h2⟩
    · exact Or.inl heq.symm
    · exact Or.inr ⟨_, _, h1, h2, PairStep.probeClear h rl k⟩
  | probeRaise h rl s k pre post =>
    refine ⟨by simp, fun i => ?_⟩
    rcases mid_pointwise pre post (⟨.probing, k⟩ : TaskState) ⟨.failed, k⟩ i with
      heq | ⟨h1, h2⟩
    · exact Or.inl heq.symm
    · exact Or.inr ⟨_, _, h1, h2, PairStep.probeRaise h rl k⟩
  | followerWake h s k pre post =>
    refine ⟨by simp, fun i => ?_⟩
    rcases mid_pointwise pre post (⟨.waiting, k⟩ : TaskState) ⟨.retrying, k⟩ i with
      heq | ⟨h1, h2⟩
    · exact Or.inl heq.symm
    · exact Or.inr ⟨_, _, h1, h2, PairStep.wake h k⟩
  | retrySuccess h rl s k n pre post =>
    refine ⟨by simp, fun i => ?_⟩
    rcases mid_pointwise pre post (⟨.retrying, k⟩ : TaskState) ⟨.done (some n), k + 1⟩ i with
      heq | ⟨h1, h2⟩
    · exact Or.inl heq.symm
    · exact Or.inr ⟨_, _, h1, h2, PairStep.retrySuccess h rl k n⟩
  | retryRaise h rl s k pre post =>
    refine ⟨by simp, fun i => ?_⟩
    rcases mid_pointwise pre post (⟨.retrying, k⟩ : TaskState) ⟨.failed, k + 1⟩ i with
      heq | ⟨h1, h2⟩
    · exact Or.inl heq.symm
    · exact Or.inr ⟨_, _, h1, h2, PairStep.retryRaise h rl k⟩
  | cancelStart h rl s k pre post =>
    refine ⟨by simp, fun i => ?_⟩
    rcases mid_pointwise pre post (⟨.start, k⟩ : TaskState) ⟨.cancelled, k⟩ i with
      heq | ⟨h1, h2⟩
    · exact Or.inl heq.symm
    · exact Or.inr ⟨_, _, h1, h2, PairStep.cancelStart h rl k⟩
  | cancelFirst h rl s k pre post =>
    refine ⟨by simp, fun i => ?_⟩
    rcases mid_pointwise pre post (⟨.firstCall, k⟩ : TaskState) ⟨.cancelled, k⟩ i with
      heq | ⟨h1, h2⟩
    · exact Or.inl heq.symm
    · exact Or.inr ⟨_, _, h1, h2, PairStep.cancelFirst h rl k⟩
  | cancelProbing h rl s k pre post =>
    refine ⟨by simp, fun i => ?_⟩
    rcases mid_pointwise pre post (⟨.probing, k⟩ : TaskState) ⟨.cancelled, k⟩ i with
      heq | ⟨h1, h2⟩
    · exact Or.inl heq.symm
    · exact Or.inr ⟨_, _, h1, h2, PairStep.cancelProbing h rl k⟩
  | cancelRetrying h rl s k pre post =>
    refine ⟨by simp, fun i => ?_⟩
    rcases mid_pointwise pre post (⟨.retrying, k⟩ : TaskState) ⟨.cancelled, k⟩ i with
      heq | ⟨h1, h2⟩
    · exact Or.inl heq.symm
    · exact Or.inr ⟨_, _, h1, h2, PairStep.cancelRetrying h rl k⟩
  | cancelWaiting h rl s k pre post =>
    refine ⟨by simp, fun i => ?_⟩
    rcases mid_pointwise pre post (⟨.waiting, k⟩ : TaskState) ⟨.cancelled, k⟩ i with
      heq | ⟨h1, h2⟩
    · exact Or.inl heq.symm
    · exact Or.inr ⟨_, _, h1, h2, PairStep.cancelWaiting h rl k⟩

lemma orchInv_init (cap n : Nat) : OrchInv cap (initConfig cap n) := by
  have hcnt : ∀ p : TaskState → Bool, p ⟨.start, 0⟩ = false →
      (List.replicate n (⟨.start, 0⟩ : TaskState)).countP p = 0 := by
    intro p hp
    induction n with
    | zero => simp
    | succ m ih => simp [List.replicate_succ, List.countP_cons, hp, ih]
  constructor
  · have := hcnt (fun t => t.pc.holdsSlot) (by simp [TaskPC.holdsSlot])
    simp [slotCount, initConfig, this]
  · have := hcnt (fun t => t.pc.isLeader) (by simp [TaskPC.isLeader])
    simp [leaderCount, initConfig, this]

lemma orchInv_step {cap : Nat} {c c' : OrchConfig} (hst : OrchStep c c')
    (hInv : OrchInv cap c) : OrchInv cap c' := by
  cases hst with
  | acquire h rl s k pre post =>
    have hb := Bool.toNat_le h
    simp only [OrchInv, slotCount, leaderCount, countP_mid, TaskPC.holdsSlot,
      TaskPC.isLeader, Bool.false_eq_true, if_false, if_true,
      eq_self_iff_true] at hInv ⊢
    omega
  | firstSuccess h rl s k n pre post =>
    have hb := Bool.toNat_le h
    simp only [OrchInv, slotCount, leaderCount, countP_mid, TaskPC.holdsSlot,
      TaskPC.isLeader, Bool.false_eq_true, if_false, if_true,
      eq_self_iff_true] at hInv ⊢
    omega
  | firstErr h rl s k pre post =>
    have hb := Bool.toNat_le h
    simp only [OrchInv, slotCount, leaderCount, countP_mid, TaskPC.holdsSlot,
      TaskPC.isLeader, Bool.false_eq_true, if_false, if_true,
      eq_self_iff_true] at hInv ⊢
    omega
  | firstThrottleLead rl s k pre post =>
    simp only [OrchInv, slotCount, leaderCount, countP_mid, TaskPC.holdsSlot,
      TaskPC.isLeader, Bool.false_eq_true, if_false, if_true,
      eq_self_iff_true, Bool.toNat_false, Bool.toNat_true] at hInv ⊢
    omega
  | firstThrottleFollow rl s k pre post =>
    simp only [OrchInv, slotCount, leaderCount, countP_mid, TaskPC.holdsSlot,
      TaskPC.isLeader, Bool.false_eq_true, if_false, if_true,
      eq_self_iff_true, Bool.toNat_true] at hInv ⊢
    omega
  | probeStill h rl s k pre post =>
    exact hInv
  | probeClear h rl s k pre post =>
    have hb := Bool.toNat_le h
    simp only [OrchInv, slotCount, leaderCount, countP_mid, TaskPC.holdsSlot,
      TaskPC.isLeader, Bool.false_eq_true, if_false, if_true,
      eq_self_iff_true, Bool.toNat_false] at hInv ⊢
    omega
  | probeRaise h rl s k pre post =>
    have hb := Bool.toNat_le h
    simp only [OrchInv, slotCount, leaderCount, countP_mid, TaskPC.holdsSlot,
      TaskPC.isLeader, Bool.false_eq_true, if_false, if_true,
      eq_self_iff_true] at hInv ⊢
    omega
  | followerWake h s k pre post =>
    have hb := Bool.toNat_le h
    simp only [OrchInv, slotCount, leaderCount, countP_mid, TaskPC.holdsSlot,
      TaskPC.isLeader, Bool.false_eq_true, if_false, if_true,
      eq_self_iff_true] at hInv ⊢
    omega
  | retrySuccess h rl s k n pre post =>
    have hb := Bool.toNat_le h
    simp only [OrchInv, slotCount, leaderCount, countP_mid, TaskPC.holdsSlot,
      TaskPC.isLeader, Bool.false_eq_true, if_false, if_true,
      eq_self_iff_true] at hInv ⊢
    omega
  | retryRaise h rl s k pre post =>
    have hb := Bool.toNat_le h
    simp only [OrchInv, slotCount, leaderCount, countP_mid, TaskPC.holdsSlot,
      TaskPC.isLeader, Bool.false_eq_true, if_false, if_true,
      eq_self_iff_true] at hInv ⊢
    omega
  | cancelStart h rl s k pre post =>
    have hb := Bool.toNat_le h
    simp only [OrchInv, slotCount, leaderCount, countP_mid, TaskPC.holdsSlot,
      TaskPC.isLeader, Bool.false_eq_true, if_false, if_true,
      eq_self_iff_true] at hInv ⊢
    omega
  | cancelFirst h rl s k pre post =>
    have hb := Bool.toNat_le h
    simp only [OrchInv, slotCount, leaderCount, countP_mid, TaskPC.holdsSlot,
      TaskPC.isLeader, Bool.false_eq_true, if_false, if_true,
      eq_self_iff_true] at hInv ⊢
    omega
  | cancelProbing h rl s k pre post =>
    have hb := Bool.toNat_le h
    simp only [OrchInv, slotCount, leaderCount, countP_mid, TaskPC.holdsSlot,
      TaskPC.isLeader, Bool.false_eq_true, if_false, if_true,
      eq_self_iff_true] at hInv ⊢
    omega
  | cancelRetrying h rl s k pre post =>
    have hb := Bool.toNat_le h
    simp only [OrchInv, slotCount, leaderCount, countP_mid, TaskPC.holdsSlot,
      TaskPC.isLeader, Bool.false_eq_true, if_false, if_true,
      eq_self_iff_true] at hInv ⊢
    omega
  | cancelWaiting h rl s k pre post =>
    have hb := Bool.toNat_le h
    simp only [OrchInv, slotCount, leaderCount, countP_mid, TaskPC.holdsSlot,
      TaskPC.isLeader, Bool.false_eq_true, if_false, if_true,
      eq_self_iff_true] at hInv ⊢
    omega

lemma reachable_orchInv {cap n : Nat} {c : OrchConfig} (h : Reachable cap n c) :
    OrchInv cap c := by
  induction h with
  | refl => exact orchInv_init cap n
  | tail hsteps hstep ih => exact orchInv_step hstep ih

/-! Inversion lemmas for the per-task projection. -/

lemma pairStep_waiting {h rl : Bool} {k : Nat} {b : TaskState}
    (hps : PairStep h rl ⟨.waiting, k⟩ b) :
    (rl = true ∧ b = ⟨.retrying, k⟩) ∨ b = ⟨.cancelled, k⟩ := by
  cases hps with
  | wake => exact Or.inl ⟨rfl, rfl⟩
  | cancelWaiting => exact Or.inr rfl

lemma pairStep_retrying {h rl : Bool} {k : Nat} {b : TaskState}
    (hps : PairStep h rl ⟨.retrying, k⟩ b) :
    (∃ n, b = ⟨.done (some n), k + 1⟩) ∨ b = ⟨.failed, k + 1⟩ ∨
      b = ⟨.cancelled, k⟩ := by
  cases hps with
  | retrySuccess _ _ _ n => exact Or.inl ⟨n, rfl⟩
  | retryRaise => exact Or.inr (Or.inl rfl)
  | cancelRetrying => exact Or.inr (Or.inr rfl)

lemma pairStep_probing {h rl : Bool} {k : Nat} {b : TaskState}
    (hps : PairStep h rl ⟨.probing, k⟩ b) :
    b = ⟨.probing, k⟩ ∨ b = ⟨.retrying, k⟩ ∨ b = ⟨.failed, k⟩ ∨
      b = ⟨.cancelled, k⟩ := by
  cases hps with
  | probeStill => exact Or.inl rfl
  | probeClear => exact Or.inr (Or.inl rfl)
  | probeRaise => exact Or.inr (Or.inr (Or.inl rfl))
  | cancelProbing => exact Or.inr (Or.inr (Or.inr rfl))

lemma pairStep_no_terminal {h rl : Bool} {a b : TaskState}
    (hps : PairStep h rl a b) (ht : a.pc.isTerminal = true) : False := by
  cases hps <;> simp [TaskPC.isTerminal] at ht

/-- Any step after which strictly fewer tasks hold a slot has put one
permit back into the semaphore: the async-with releases the slot on every
way out of the block. -/
lemma step_releases_slot {c c' : OrchConfig} (hst : OrchStep c c')
    (hdec : slotCount c' < slotCount c) : c'.semAvail = c.semAvail + 1 := by
  cases hst <;>
    simp only [slotCount, countP_mid, TaskPC.holdsSlot, Bool.false_eq_true,
      if_false, if_true, eq_self_iff_true] at hdec ⊢ <;>
    omega

lemma pairStep_followTraj {h rl : Bool} {k : Nat} {a b : TaskState}
    (hps : PairStep h rl a b) (hf : FollowTraj k a) : FollowTraj k b := by
  rcases hf with rfl | rfl | ⟨n, rfl⟩ | rfl | rfl
  · rcases pairStep_waiting hps with ⟨_, rfl⟩ | rfl
    · exact Or.inr (Or.inl rfl)
    · exact Or.inr (Or.inr (Or.inr (Or.inr rfl)))
  · rcases pairStep_retrying hps with ⟨n, rfl⟩ | rfl | rfl
    · exact Or.inr (Or.inr (Or.inl ⟨n, rfl⟩))
    · exact Or.inr (Or.inr (Or.inr (Or.inl rfl)))
    · exact Or.inr (Or.inr (Or.inr (Or.inr rfl)))
  · exact (pairStep_no_terminal hps (by simp [TaskPC.isTerminal])).elim
  · exact (pairStep_no_terminal hps (by simp [TaskPC.isTerminal])).elim
  · exact (pairStep_no_terminal hps (by simp [TaskPC.isTerminal])).elim

/-- Along any run, a task that was blocked on the follower wait stays on
the follower trajectory: at most one further retrieval, whose outcome is
its final state. -/
lemma trace_followTraj {c c' : OrchConfig} {i k : Nat}
    (htr : Relation.ReflTransGen OrchStep c c') :
    ∀ a, c.tasks[i]? = some a → FollowTraj k a →
      ∃ b, c'.tasks[i]? = some b ∧ FollowTraj k b := by
  induction htr with
  | refl => exact fun a ha hf => ⟨a, ha, hf⟩
  | tail hsteps hstep ih =>
    intro a ha hf
    obtain ⟨b, hb, hfb⟩ := ih a ha hf
    rcases (step_pointwise hstep).2 i with heq | ⟨x, y, hx, hy, hps⟩
    · exact ⟨b, heq.trans hb, hfb⟩
    · rw [hb] at hx
      cases Option.some.inj hx
      exact ⟨y, hy, pairStep_followTraj hps hfb⟩

lemma stuck_step {c c' : OrchConfig} (hst : OrchStep c c')
    (hs : StuckState c) : StuckState c' := by
  obtain ⟨h1, h2, h3⟩ := hs
  cases hst with
  | acquire h rl s k pre post =>
    refine ⟨h1, h2, ?_⟩
    simp only [leaderCount, countP_mid, TaskPC.isLeader, Bool.false_eq_true,
      if_false, if_true, eq_self_iff_true] at h3 ⊢
    omega
  | firstSuccess h rl s k n pre post =>
    refine ⟨h1, h2, ?_⟩
    simp only [leaderCount, countP_mid, TaskPC.isLeader, Bool.false_eq_true,
      if_false, if_true, eq_self_iff_true] at h3 ⊢
    omega
  | firstErr h rl s k pre post =>
    refine ⟨h1, h2, ?_⟩
    simp only [leaderCount, countP_mid, TaskPC.isLeader, Bool.false_eq_true,
      if_false, if_true, eq_self_iff_true] at h3 ⊢
    omega
  | firstThrottleLead rl s k pre post => exact absurd h1 (by simp)
  | firstThrottleFollow rl s k pre post =>
    refine ⟨h1, h2, ?_⟩
    simp only [leaderCount, countP_mid, TaskPC.isLeader, Bool.false_eq_true,
      if_false, if_true, eq_self_iff_true] at h3 ⊢
    omega
  | probeStill h rl s k pre post => exact ⟨h1, h2, h3⟩
  | probeClear h rl s k pre post =>
    exfalso
    simp only [leaderCount, countP_mid, TaskPC.isLeader, Bool.false_eq_true,
      if_false, if_true, eq_self_iff_true] at h3
    omega
  | probeRaise h rl s k pre post =>
    exfalso
    simp only [leaderCount, countP_mid, TaskPC.isLeader, Bool.false_eq_true,
      if_false, if_true, eq_self_iff_true] at h3
    omega
  | followerWake h s k pre post => exact absurd h2 (by simp)
  | retrySuccess h rl s k n pre post =>
    refine ⟨h1, h2, ?_⟩
    simp only [leaderCount, countP_mid, TaskPC.isLeader, Bool.false_eq_true,
      if_false, if_true, eq_self_iff_true] at h3 ⊢
    omega
  | retryRaise h rl s k pre post =>
    refine ⟨h1, h2, ?_⟩
    simp only [leaderCount, countP_mid, TaskPC.isLeader, Bool.false_eq_true,
      if_false, if_true, eq_self_iff_true] at h3 ⊢
    omega
  | cancelStart h rl s k pre post =>
    refine ⟨h1, h2, ?_⟩
    simp only [leaderCount, countP_mid, TaskPC.isLeader, Bool.false_eq_true,
      if_false, if_true, eq_self_iff_true] at h3 ⊢
    omega
  | cancelFirst h rl s k pre post =>
    refine ⟨h1, h2, ?_⟩
    simp only [leaderCount, countP_mid, TaskPC.isLeader, Bool.false_eq_true,
      if_false, if_true, eq_self_iff_true] at h3 ⊢
    omega
  | cancelProbing h rl s k pre post =>
    exfalso
    simp only [leaderCount, countP_mid, TaskPC.isLeader, Bool.false_eq_true,
      if_false, if_true, eq_self_iff_true] at h3
    omega
  | cancelRetrying h rl s k pre post =>
    refine ⟨h1, h2, ?_⟩
    simp only [leaderCount, countP_mid, TaskPC.isLeader, Bool.false_eq_true,
      if_false, if_true, eq_self_iff_true] at h3 ⊢
    omega
  | cancelWaiting h rl s k pre post =>
    refine ⟨h1, h2, ?_⟩
    simp only [leaderCount, countP_mid, TaskPC.isLeader, Bool.false_eq_true,
      if_false, if_true, eq_self_iff_true] at h3 ⊢
    omega

/-- In a stuck state a waiting follower can only stay waiting or be
cancelled: the wake requires the event that nobody will ever set again. -/
lemma stuck_waiting_step {c c' : OrchConfig} {i k : Nat} (hst : OrchStep c c')
    (hs : StuckState c) (hi : c.tasks[i]? = some ⟨.waiting, k⟩) :
    c'.tasks[i]? = some ⟨.waiting, k⟩ ∨ c'.tasks[i]? = some ⟨.cancelled, k⟩ := by
  rcases (step_pointwise hst).2 i with heq | ⟨x, y, hx, hy, hps⟩
  · exact Or.inl (heq.trans hi)
  · rw [hi] at hx
    cases Option.some.inj hx
    rcases pairStep_waiting hps with ⟨hrl, rfl⟩ | rfl
    · rw [hs.2.1] at hrl
      exact absurd hrl (by simp)
    · exact Or.inr hy

/-- A cancelled task stays cancelled. -/
lemma cancelled_step {c c' : OrchConfig} {i k : Nat} (hst : OrchStep c c')
    (hi : c.tasks[i]? = some ⟨.cancelled, k⟩) :
    c'.tasks[i]? = some ⟨.cancelled, k⟩ := by
  rcases (step_pointwise hst).2 i with heq | ⟨x, y, hx, hy, hps⟩
  · exact heq.trans hi
  · rw [hi] at hx
    cases Option.some.inj hx
    exact (pairStep_no_terminal hps (by simp [TaskPC.isTerminal])).elim

/-- From a stuck state every reachable state is stuck and a follower that
was waiting is still waiting unless teardown cancelled it. -/
lemma trace_stuck {c c' : OrchConfig} {i k : Nat}
    (htr : Relation.ReflTransGen OrchStep c c') (hs : StuckState c)
    (hi : c.tasks[i]? = some ⟨.waiting, k⟩) :
    StuckState c' ∧ (c'.tasks[i]? = some ⟨.waiting, k⟩ ∨
      c'.tasks[i]? = some ⟨.cancelled, k⟩) := by
  induction htr with
  | refl => exact ⟨hs, Or.inl hi⟩
  | tail hsteps hstep ih =>
    obtain ⟨hsmid, hmid⟩ := ih
    refine ⟨stuck_step hstep hsmid, ?_⟩
    rcases hmid with hw | hc
    · exact stuck_waiting_step hstep hsmid hw
    · exact Or.inr (cancelled_step hstep hc)

/-- One step of a task awaiting the post-backoff retry: it is still
retrying, or the single retry decided its final state (returned notes, or
propagated an exception), or it was cancelled. It never returns to the
coordinator and never produces the logged empty result of the
first-attempt except clause. -/
lemma step_retrying_charac {c c' : OrchConfig} {i k : Nat} (hst : OrchStep c c')
    (hi : c.tasks[i]? = some ⟨.retrying, k⟩) :
    c'.tasks[i]? = some ⟨.retrying, k⟩ ∨
      (∃ n, c'.tasks[i]? = some ⟨.done (some n), k + 1⟩) ∨
      c'.tasks[i]? = some ⟨.failed, k + 1⟩ ∨
      c'.tasks[i]? = some ⟨.cancelled, k⟩ := by
  rcases (step_pointwise hst).2 i with heq | ⟨x, y, hx, hy, hps⟩
  · exact Or.inl (heq.trans hi)
  · rw [hi] at hx
    cases Option.some.inj hx
    rcases pairStep_retrying hps with ⟨n, rfl⟩ | rfl | rfl
    · exact Or.inr (Or.inl ⟨n, hy⟩)
    · exact Or.inr (Or.inr (Or.inl hy))
    · exact Or.inr (Or.inr (Or.inr hy))

/-- One step of a waiting follower: it stays waiting, or wakes into the
retry, which happens only when rate_limit_event is set, or is cancelled. -/
lemma step_waiting_charac {c c' : OrchConfig} {i k : Nat} (hst : OrchStep c c')
    (hi : c.tasks[i]? = some ⟨.waiting, k⟩) :
    c'.tasks[i]? = some ⟨.waiting, k⟩ ∨
      (c.rlEvent = true ∧ c'.tasks[i]? = some ⟨.retrying, k⟩) ∨
      c'.tasks[i]? = some ⟨.cancelled, k⟩ := by
  rcases (step_pointwise hst).2 i with heq | ⟨x, y, hx, hy, hps⟩
  · exact Or.inl (heq.trans hi)
  · rw [hi] at hx
    cases Option.some.inj hx
    rcases pairStep_waiting hps with ⟨hrl, rfl⟩ | rfl
    · exact Or.inr (Or.inl ⟨hrl, hy⟩)
    · exact Or.inr (Or.inr hy)

/-! Lemmas about the drain loop. -/

lemma drain_consumed_le (limit : Nat) :
    ∀ (rs : List TaskResult) (acc : List Nat) (c : Nat),
      (drain limit acc c rs).consumed ≤ c + rs.length := by
  intro rs
  induction rs with
  | nil => intro acc c; simp [drain, DrainExit.consumed]
  | cons r rest ih =>
    intro acc c
    cases r with
    | err => simp [drain, DrainExit.consumed]
    | ok ns =>
      cases hns : ns.isEmpty with
      | true =>
        have hstep : drain limit acc c (TaskResult.ok ns :: rest) =
            drain limit acc (c + 1) rest := by
          simp [drain, hns]
        have h1 := ih acc (c + 1)
        rw [hstep]
        simp only [List.length_cons]
        omega
      | false =>
        by_cases hcap : limit ≠ 0 ∧ limit ≤ acc.length + ns.length
        · have hstep : drain limit acc c (TaskResult.ok ns :: rest) =
              .capped (acc ++ ns) (c + 1) := by
            simp [drain, hns, hcap]
          rw [hstep]
          simp only [DrainExit.consumed, List.length_cons]
          omega
        · have hstep : drain limit acc c (TaskResult.ok ns :: rest) =
              drain limit (acc ++ ns) (c + 1) rest := by
            simp [drain, hns, hcap]
          have h1 := ih (acc ++ ns) (c + 1)
          rw [hstep]
          simp only [List.length_cons]
          omega

lemma flatNotes_cons_ok (ns : List Nat) (rest : List TaskResult) :
    flatNotes (.ok ns :: rest) = ns ++ flatNotes rest := by
  simp [flatNotes]

/-- If every task result is a success and together they carry at least
limit notes (limit positive, accumulator still under the limit), the
drain loop exits through the cap break at the first completion whose
notes push the total to the limit. -/
lemma drain_caps (limit : Nat) (hpos : 0 < limit) :
    ∀ (rs : List TaskResult) (acc : List Nat) (c : Nat),
      (∀ r ∈ rs, r ≠ TaskResult.err) →
      acc.length < limit →
      limit ≤ acc.length + (flatNotes rs).length →
      ∃ m, 0 < m ∧ m ≤ rs.length ∧
        drain limit acc c rs = .capped (acc ++ flatNotes (rs.take m)) (c + m) ∧
        limit ≤ acc.length + (flatNotes (rs.take m)).length ∧
        ∀ j < m, acc.length + (flatNotes (rs.take j)).length < limit := by
  intro rs
  induction rs with
  | nil =>
    intro acc c hok hlt hge
    exfalso
    simp [flatNotes] at hge
    omega
  | cons r rest ih =>
    intro acc c hok hlt hge
    obtain ⟨ns, rfl⟩ : ∃ ns, r = TaskResult.ok ns := by
      cases r with
      | ok ns => exact ⟨ns, rfl⟩
      | err => exact absurd rfl (hok _ (by simp))
    have hflat : flatNotes (TaskResult.ok ns :: rest) = ns ++ flatNotes rest :=
      flatNotes_cons_ok ns rest
    have hokrest : ∀ r ∈ rest, r ≠ TaskResult.err :=
      fun r hrr => hok r (List.mem_cons_of_mem _ hrr)
    cases hns : ns.isEmpty with
    | true =>
      have hnil : ns = [] := by
        cases ns with
        | nil => rfl
        | cons a t => simp at hns
      subst hnil
      have hge2 : limit ≤ acc.length + (flatNotes rest).length := by
        rw [hflat] at hge
        simpa using hge
      obtain ⟨m, hm0, hmle, hdr, hcapm, hmin⟩ := ih acc (c + 1) hokrest hlt hge2
      have hstep : drain limit acc c (TaskResult.ok [] :: rest) =
          drain limit acc (c + 1) rest := by
        simp [drain]
      refine ⟨m + 1, by omega, by simp only [List.length_cons]; omega, ?_, ?_, ?_⟩
      · rw [hstep, hdr, List.take_succ_cons, flatNotes_cons_ok]
        have hc : c + 1 + m = c + (m + 1) := by omega
        rw [hc]
        simp
      · rw [List.take_succ_cons, flatNotes_cons_ok]
        simpa using hcapm
      · intro j hj
        cases j with
        | zero => simpa [flatNotes] using hlt
        | succ j2 =>
          rw [List.take_succ_cons, flatNotes_cons_ok]
          have h2 := hmin j2 (by omega)
          simpa using h2
    | false =>
      by_cases hcap : limit ≤ acc.length + ns.length
      · have h0 : limit ≠ 0 := by omega
        have hstep : drain limit acc c (TaskResult.ok ns :: rest) =
            .capped (acc ++ ns) (c + 1) := by
          simp [drain, hns, h0, hcap]
        refine ⟨1, by omega, by simp, ?_, ?_, ?_⟩
        · rw [hstep]
          have h1 : (TaskResult.ok ns :: rest).take 1 = [TaskResult.ok ns] := rfl
          rw [h1]
          simp [flatNotes]
        · have h1 : (TaskResult.ok ns :: rest).take 1 = [TaskResult.ok ns] := rfl
          rw [h1]
          have h2 : flatNotes [TaskResult.ok ns] = ns := by simp [flatNotes]
          rw [h2]
          omega
        · intro j hj
          have hj0 : j = 0 := by omega
          subst hj0
          simpa [flatNotes] using hlt
      · have hno : ¬(limit ≠ 0 ∧ limit ≤ acc.length + ns.length) :=
          fun hc => hcap hc.2
        have hstep : drain limit acc c (TaskResult.ok ns :: rest) =
            drain limit (acc ++ ns) (c + 1) rest := by
          simp [drain, hns, hno]
        have hlt2 : (acc ++ ns).length < limit := by
          simp only [List.length_append]
          omega
        have hge2 : limit ≤ (acc ++ ns).length + (flatNotes rest).length := by
          rw [hflat] at hge
          simp only [List.length_append] at hge ⊢
          omega
        obtain ⟨m, hm0, hmle, hdr, hcapm, hmin⟩ :=
          ih (acc ++ ns) (c + 1) hokrest hlt2 hge2
        refine ⟨m + 1, by omega, by simp only [List.length_cons]; omega, ?_, ?_, ?_⟩
        · rw [hstep, hdr, List.take_succ_cons, flatNotes_cons_ok,
            ← List.append_assoc]
          have hc : c + 1 + m = c + (m + 1) := by omega
          rw [hc]
        · rw [List.take_succ_cons, flatNotes_cons_ok]
          simp only [List.length_append] at hcapm ⊢
          omega
        · intro j hj
          cases j with
          | zero => simpa [flatNotes] using hlt
          | succ j2 =>
            have h2 := hmin j2 (by omega)
            rw [List.take_succ_cons, flatNotes_cons_ok]
            simp only [List.length_append] at h2 ⊢
            omega

/-! Lemmas about the Dictionary. -/

lemma lookupTranslations_cons (w0 w : String) (ts : List Nat)
    (tr : List (String × List Nat)) :
    lookupTranslations ((w0, ts) :: tr) w =
      if w0 = w then some ts else lookupTranslations tr w := by
  by_cases h : w0 = w <;> simp [lookupTranslations, List.find?_cons, h]

lemma dictInv_translate {d : Dictionary} (hI : DictInv d) (w0 : String) :
    DictInv (d.translate w0).2 := by
  cases hlook : lookupTranslations d.translations w0 with
  | some ts =>
    have he : (d.translate w0).2 = d := by simp [Dictionary.translate, hlook]
    rw [he]
    exact hI
  | none =>
    cases hret : d.retriever with
    | none =>
      have he : (d.translate w0).2 = d := by simp [Dictionary.translate, hlook, hret]
      rw [he]
      exact hI
    | some f =>
      have he : (d.translate w0).2 =
          ⟨some f, (w0, f w0) :: d.translations, d.callLog ++ [w0]⟩ := by
        simp [Dictionary.translate, hlook, hret]
      rw [he]
      intro w
      by_cases hw : w = w0
      · subst hw
        have hnotmem : w ∉ d.callLog := by
          intro hmem
          have hs := (hI w).2 hmem
          rw [hlook] at hs
          simp at hs
        constructor
        · simp [List.count_append, List.count_eq_zero.mpr hnotmem]
        · intro _
          simp [lookupTranslations_cons]
      · constructor
        · have h1 := (hI w).1
          simp only [List.count_append, List.count_cons, List.count_nil]
          have : ¬(w0 = w) := fun h => hw h.symm
          simp [this]
          omega
        · intro hmem
          simp only [List.mem_append, List.mem_singleton] at hmem
          rcases hmem with hmem | hmem
          · have hs := (hI w).2 hmem
            rw [lookupTranslations_cons, if_neg (fun h => hw h.symm)]
            exact hs
          · exact absurd hmem hw

lemma dictInv_start (r : Option (String → List Nat)) :
    DictInv ⟨r, [], []⟩ := by
  intro w
  constructor
  · simp
  · intro hmem
    simp at hmem

lemma dictInv_translateAll {d : Dictionary} (hI : DictInv d) :
    ∀ ws : List String, DictInv (d.translateAll ws) := by
  intro ws
  induction ws generalizing d with
  | nil => exact hI
  | cons w ws ih => exact ih (dictInv_translate hI w)

lemma translate_second_call {d : Dictionary} (w : String) :
    ((d.translate w).2).translate w = d.translate w := by
  cases hlook : lookupTranslations d.translations w with
  | some ts =>
    have he : d.translate w = (ts, d) := by simp [Dictionary.translate, hlook]
    rw [he, he]
  | none =>
    cases hret : d.retriever with
    | none =>
      have he : d.translate w = ([], d) := by simp [Dictionary.translate, hlook, hret]
      rw [he, he]
    | some f =>
      have he : d.translate w =
          (f w, ⟨some f, (w, f w) :: d.translations, d.callLog ++ [w]⟩) := by
        simp [Dictionary.translate, hlook, hret]
      rw [he]
      have hlook2 : lookupTranslations ((w, f w) :: d.translations) w = some (f w) := by
        rw [lookupTranslations_cons, if_pos rfl]
      simp [Dictionary.translate, hlook2]

/-! Claim theorems. -/

/-- C1: at any instant of any execution of the orchestrator, at most one
task holds the backoff-leader role (the handler-in-progress region of
rate_limited_create_notes): the check-then-set of the handling flag in
lines 63-64 contains no suspension point, so it is one atomic step of the
machine, every later throttled task sees the flag set and becomes a
follower, and the leader count never exceeds one in any reachable
configuration. -/
theorem leader_role_unique (cap n : Nat) (c : OrchConfig)
    (h : Reachable cap n c) : leaderCount c ≤ 1 := by
  have h2 := (reachable_orchInv h).2
  have h3 := Bool.toNat_le c.handling
  omega

/-- Witness for C1: a concrete reachable configuration in which one task
has elected itself leader while the other is still pending. -/
theorem leader_role_unique_witness :
    leaderCount ⟨true, false, 0, [⟨.probing, 1⟩, ⟨.start, 0⟩]⟩ ≤ 1 := by
  refine leader_role_unique 1 2 _ ?_
  refine Relation.ReflTransGen.head
    (OrchStep.acquire false true 0 0 [] [⟨.start, 0⟩]) ?_
  exact Relation.ReflTransGen.head
    (OrchStep.firstThrottleLead true 0 0 [] [⟨.start, 0⟩])
    Relation.ReflTransGen.refl

/-- C2: with concurrency limit cap, in every reachable configuration at
most cap tasks are past slot acquisition and not yet released, and any
step on which a task gives up its slot (success, throttled-retry cycle,
failure or cancellation) puts the permit back into the semaphore. -/
theorem retrieval_slots_bounded (cap n : Nat) (c : OrchConfig)
    (h : Reachable cap n c) :
    slotCount c ≤ cap ∧
      ∀ c2, OrchStep c c2 → slotCount c2 < slotCount c →
        c2.semAvail = c.semAvail + 1 := by
  refine ⟨?_, fun c2 hst hdec => step_releases_slot hst hdec⟩
  have h1 := (reachable_orchInv h).1
  omega

/-- Witness for C2: the bound instantiated at the startup configuration
with three slots and five tasks. -/
theorem retrieval_slots_bounded_witness :
    slotCount (initConfig 3 5) ≤ 3 ∧
      ∀ c2, OrchStep (initConfig 3 5) c2 →
        slotCount c2 < slotCount (initConfig 3 5) →
          c2.semAvail = (initConfig 3 5).semAvail + 1 :=
  retrieval_slots_bounded 3 5 (initConfig 3 5) Relation.ReflTransGen.refl

/-- C5: whatever way the drain loop of create_deck exits (all completions
consumed, note cap reached, or an exception out of an awaited task), the
finally block runs: close_session is called exactly once, every task not
yet done is cancelled (so none remains scheduled), the cancelled tasks
are awaited with return_exceptions set so a cancellation never surfaces,
and the run raises only if the drain loop itself raised. -/
theorem teardown_on_every_path (limit : Nat) (results : List TaskResult)
    (doneAtExit : Nat)
    (h1 : (drain limit [] 0 results).consumed ≤ doneAtExit)
    (h2 : doneAtExit ≤ results.length) :
    (runCreateDeck limit results doneAtExit).sessionCloses = 1 ∧
    (runCreateDeck limit results doneAtExit).cancelled + doneAtExit =
      results.length ∧
    (runCreateDeck limit results doneAtExit).raised =
      (drain limit [] 0 results).isError ∧
    (runCreateDeck limit results doneAtExit).consumed ≤ results.length := by
  refine ⟨rfl, ?_, rfl, ?_⟩
  · have : (runCreateDeck limit results doneAtExit).cancelled =
        results.length - doneAtExit := rfl
    omega
  · have h3 := drain_consumed_le limit results [] 0
    have h4 : (runCreateDeck limit results doneAtExit).consumed =
        (drain limit [] 0 results).consumed := rfl
    omega

/-- Witness for C5: a run over two tasks whose second await raises; the
teardown facts hold with one task already done at exit. -/
theorem teardown_on_every_path_witness :
    (runCreateDeck 0 [.ok [1], .err] 1).sessionCloses = 1 ∧
    (runCreateDeck 0 [.ok [1], .err] 1).cancelled + 1 =
      ([TaskResult.ok [1], TaskResult.err] : List TaskResult).length ∧
    (runCreateDeck 0 [.ok [1], .err] 1).raised =
      (drain 0 [] 0 [.ok [1], .err]).isError ∧
    (runCreateDeck 0 [.ok [1], .err] 1).consumed ≤
      ([TaskResult.ok [1], TaskResult.err] : List TaskResult).length :=
  teardown_on_every_path 0 [.ok [1], .err] 1 (by decide) (by decide)

/-- C9: any number of rate_limited probe calls while the server is not
throttling all return false and leave the BackoffState untouched (the
probe only reopens the session if needed and counts its requests). -/
theorem probe_idempotent_no_mutation :
    ∀ (n : Nat) (st : SharedState),
      (probeCalls false n st).1 = List.replicate n false ∧
      (probeCalls false n st).2.backoff = st.backoff ∧
      (probeCalls false n st).2.scraper.requests_made =
        st.scraper.requests_made + n := by
  intro n
  induction n with
  | zero => intro st; exact ⟨rfl, rfl, rfl⟩
  | succ m ih =>
    intro st
    obtain ⟨⟨so, rm⟩, bo⟩ := st
    obtain ⟨ih1, ih2, ih3⟩ := ih (rate_limited false ⟨⟨so, rm⟩, bo⟩).2
    have hunf1 : (probeCalls false (m + 1) (⟨⟨so, rm⟩, bo⟩ : SharedState)).1 =
        (rate_limited false ⟨⟨so, rm⟩, bo⟩).1 ::
          (probeCalls false m (rate_limited false ⟨⟨so, rm⟩, bo⟩).2).1 := rfl
    have hunf2 : (probeCalls false (m + 1) (⟨⟨so, rm⟩, bo⟩ : SharedState)).2 =
        (probeCalls false m (rate_limited false ⟨⟨so, rm⟩, bo⟩).2).2 := rfl
    refine ⟨?_, ?_, ?_⟩
    · rw [hunf1, ih1]
      rfl
    · rw [hunf2]
      exact ih2
    · rw [hunf2, ih3]
      cases so with
      | false =>
        have hr : (rate_limited false
            (⟨⟨false, rm⟩, bo⟩ : SharedState)).2.scraper.requests_made =
              rm + 1 := rfl
        rw [hr]
        show rm + 1 + m = rm + (m + 1)
        omega
      | true =>
        have hr : (rate_limited false
            (⟨⟨true, rm⟩, bo⟩ : SharedState)).2.scraper.requests_made =
              rm + 1 := rfl
        rw [hr]
        show rm + 1 + m = rm + (m + 1)
        omega

/-- C10: Dictionary.translate memoizes: a second call for the same word
returns the stored result with no state change and no further retriever
invocation, over any word sequence the retriever is invoked at most once
per distinct word, and with no retriever a miss returns the empty list
without caching. -/
theorem dictionary_translate_memoizes :
    (∀ (d : Dictionary) (w : String),
        ((d.translate w).2).translate w = d.translate w) ∧
    (∀ (d : Dictionary) (w : String), d.retriever = none →
        lookupTranslations d.translations w = none → d.translate w = ([], d)) ∧
    (∀ (f : String → List Nat) (ws : List String) (w : String),
        ((⟨some f, [], []⟩ : Dictionary).translateAll ws).callLog.count w ≤ 1) := by
  refine ⟨fun d w => translate_second_call w, ?_, ?_⟩
  · intro d w hret hlook
    simp [Dictionary.translate, hlook, hret]
  · intro f ws w
    exact (dictInv_translateAll (dictInv_start (some f)) ws w).1

/-- Witness for C10: the memoization facts evaluated on a concrete
dictionary and word sequence. -/
theorem dictionary_translate_memoizes_witness :
    ((((⟨none, [], []⟩ : Dictionary).translate "a").2).translate "a" =
      (⟨none, [], []⟩ : Dictionary).translate "a") ∧
    ((⟨none, [], []⟩ : Dictionary).translate "a" = ([], ⟨none, [], []⟩)) ∧
    (((⟨some (fun w => [w.length]), [], []⟩ : Dictionary).translateAll
        ["a", "b", "a"]).callLog.count "a" ≤ 1) :=
  ⟨dictionary_translate_memoizes.1 ⟨none, [], []⟩ "a",
   dictionary_translate_memoizes.2.1 ⟨none, [], []⟩ "a" rfl rfl,
   dictionary_translate_memoizes.2.2 (fun w => [w.length]) ["a", "b", "a"] "a"⟩

/-- C3: evaluation of the code at the failing scenario. With one slot and
two words, the leader elected after a throttle suffers a probe fault
(probeRaise): the exception propagates out of its coroutine with nothing
in lines 63-77 clearing the handling flag or setting rate_limit_event, so
the reached configuration has the leader failed, handler_in_progress
still true and the event still cleared; and from that configuration every
further reachable configuration keeps both flags as they are and keeps
the follower blocked (it can only ever leave the wait by being cancelled
at teardown). This contradicts the claim that the leader clears
handler_in_progress and releases the followers before propagating. -/
theorem probe_fault_leaves_followers_stuck :
    Reachable 1 2 ⟨true, false, 0, [⟨.failed, 1⟩, ⟨.waiting, 1⟩]⟩ ∧
    ∀ c', Relation.ReflTransGen OrchStep
        ⟨true, false, 0, [⟨.failed, 1⟩, ⟨.waiting, 1⟩]⟩ c' →
      c'.handling = true ∧ c'.rlEvent = false ∧
        (c'.tasks[1]? = some ⟨.waiting, 1⟩ ∨
          c'.tasks[1]? = some ⟨.cancelled, 1⟩) := by
  constructor
  · refine Relation.ReflTransGen.head
      (OrchStep.acquire false true 0 0 [] [⟨.start, 0⟩]) ?_
    refine Relation.ReflTransGen.head
      (OrchStep.firstThrottleLead true 0 0 [] [⟨.start, 0⟩]) ?_
    refine Relation.ReflTransGen.head
      (OrchStep.probeRaise true false 0 1 [] [⟨.start, 0⟩]) ?_
    refine Relation.ReflTransGen.head
      (OrchStep.acquire true false 0 0 [⟨.failed, 1⟩] []) ?_
    exact Relation.ReflTransGen.head
      (OrchStep.firstThrottleFollow false 0 0 [⟨.failed, 1⟩] [])
      Relation.ReflTransGen.refl
  · intro c' htr
    have hstuck : StuckState ⟨true, false, 0, [⟨.failed, 1⟩, ⟨.waiting, 1⟩]⟩ := by
      refine ⟨rfl, rfl, ?_⟩
      decide
    have hw : (⟨true, false, 0, [⟨.failed, 1⟩, ⟨.waiting, 1⟩]⟩ :
        OrchConfig).tasks[1]? = some ⟨.waiting, 1⟩ := by decide
    obtain ⟨hs2, hw2⟩ := trace_stuck htr hstuck hw
    exact ⟨hs2.1, hs2.2.1, hw2⟩

/-- C4 counterexample: a non-throttle failure on the post-backoff retry
path is fatal. The retryRaise step shows the retry exception leaving the
coroutine as a task failure (not the logged None of the first-attempt
path), and draining three words whose second await re-raises stops the
loop with the third word never processed, refuting both "never fatal"
and "holds on every path including the post-backoff retry path". -/
theorem retry_failure_aborts_run :
    OrchStep ⟨true, false, 0, [⟨.retrying, 1⟩]⟩
      ⟨true, false, 1, [⟨.failed, 2⟩]⟩ ∧
    drain 0 [] 0 [.ok [11], .err, .ok [12]] = .errored [11] 1 ∧
    (drain 0 [] 0 [.ok [11], .err, .ok [12]]).consumed <
      ([TaskResult.ok [11], TaskResult.err, TaskResult.ok [12]] :
        List TaskResult).length := by
  exact ⟨OrchStep.retryRaise true false 0 1 [] [], by decide, by decide⟩

/-- C4 amended: a word whose FIRST retrieval attempt reports a
non-throttle failure contributes zero records (the generic except clause
logs it and returns None) and the drain loop continues with the other
words; but on the post-backoff retry path a failure propagates out of the
coroutine (the retry sits inside the except handler, so nothing catches
it) and aborts the drain loop, leaving later completions unprocessed. -/
theorem failure_isolation_amended :
    (∀ (limit : Nat) (acc : List Nat) (consumed : Nat) (rest : List TaskResult),
        drain limit acc consumed (.ok [] :: rest) =
          drain limit acc (consumed + 1) rest) ∧
    (∀ (limit : Nat) (acc : List Nat) (consumed : Nat) (rest : List TaskResult),
        drain limit acc consumed (.err :: rest) = .errored acc consumed) ∧
    (∀ (h rl : Bool) (s k : Nat) (pre post : List TaskState),
        OrchStep ⟨h, rl, s, pre ++ ⟨.firstCall, k⟩ :: post⟩
          ⟨h, rl, s + 1, pre ++ ⟨.done none, k + 1⟩ :: post⟩) ∧
    (∀ (c c' : OrchConfig) (i k : Nat), OrchStep c c' →
        c.tasks[i]? = some ⟨.retrying, k⟩ →
          c'.tasks[i]? = some ⟨.retrying, k⟩ ∨
          (∃ n, c'.tasks[i]? = some ⟨.done (some n), k + 1⟩) ∨
          c'.tasks[i]? = some ⟨.failed, k + 1⟩ ∨
          c'.tasks[i]? = some ⟨.cancelled, k⟩) := by
  refine ⟨?_, ?_, ?_, ?_⟩
  · intro limit acc consumed rest
    simp [drain]
  · intro limit acc consumed rest
    rfl
  · intro h rl s k pre post
    exact OrchStep.firstErr h rl s k pre post
  · intro c c' i k hst hi
    exact step_retrying_charac hst hi

/-- Witness for the amended C4: the drain equations on concrete lists and
the retry characterization at a concrete successful retry step. -/
theorem failure_isolation_amended_witness :
    drain 5 [] 0 [.ok []] = drain 5 [] 1 [] ∧
    drain 5 [] 0 [.err, .ok [3]] = .errored [] 0 ∧
    OrchStep ⟨false, true, 0, [⟨.firstCall, 0⟩]⟩
      ⟨false, true, 1, [⟨.done none, 1⟩]⟩ ∧
    ((⟨false, true, 1, [⟨.done (some 7), 2⟩]⟩ :
        OrchConfig).tasks[0]? = some ⟨.retrying, 1⟩ ∨
      (∃ n, (⟨false, true, 1, [⟨.done (some 7), 2⟩]⟩ :
        OrchConfig).tasks[0]? = some ⟨.done (some n), 2⟩) ∨
      (⟨false, true, 1, [⟨.done (some 7), 2⟩]⟩ :
        OrchConfig).tasks[0]? = some ⟨.failed, 2⟩ ∨
      (⟨false, true, 1, [⟨.done (some 7), 2⟩]⟩ :
        OrchConfig).tasks[0]? = some ⟨.cancelled, 1⟩) :=
  ⟨failure_isolation_amended.1 5 [] 0 [],
   failure_isolation_amended.2.1 5 [] 0 [.ok [3]],
   failure_isolation_amended.2.2.1 false true 0 0 [] [],
   failure_isolation_amended.2.2.2 ⟨false, true, 0, [⟨.retrying, 1⟩]⟩
     ⟨false, true, 1, [⟨.done (some 7), 2⟩]⟩ 0 1
     (OrchStep.retrySuccess false true 0 1 7 [] []) (by decide)⟩

/-- C6: with a positive note cap that the produced notes would reach, the
drain loop exits through the cap break at the first completion whose notes
push the running total to or past the cap (all earlier prefixes are below
it), and the finally block then cancels and awaits every task not yet done
and closes the session. -/
theorem note_cap_stops_early (limit : Nat) (results : List TaskResult)
    (doneAtExit : Nat) (hpos : 0 < limit)
    (hok : ∀ r ∈ results, r ≠ TaskResult.err)
    (htot : limit ≤ (flatNotes results).length)
    (h1 : (drain limit [] 0 results).consumed ≤ doneAtExit)
    (h2 : doneAtExit ≤ results.length) :
    ∃ m, 0 < m ∧ m ≤ results.length ∧
      drain limit [] 0 results = .capped (flatNotes (results.take m)) m ∧
      limit ≤ (flatNotes (results.take m)).length ∧
      (∀ j < m, (flatNotes (results.take j)).length < limit) ∧
      (runCreateDeck limit results doneAtExit).cancelled + doneAtExit =
        results.length ∧
      (runCreateDeck limit results doneAtExit).sessionCloses = 1 := by
  obtain ⟨m, hm0, hmle, hdr, hcap, hmin⟩ :=
    drain_caps limit hpos results [] 0 hok (by simpa using hpos)
      (by simpa using htot)
  refine ⟨m, hm0, hmle, ?_, by simpa using hcap,
    fun j hj => by simpa using hmin j hj, ?_, rfl⟩
  · simpa using hdr
  · have hc : (runCreateDeck limit results doneAtExit).cancelled =
        results.length - doneAtExit := rfl
    omega

/-- Witness for C6: cap 3 over three successful tasks carrying one, two
and one notes; the cap is crossed by the second completion. -/
theorem note_cap_stops_early_witness :
    ∃ m, 0 < m ∧
      m ≤ ([TaskResult.ok [1], TaskResult.ok [2, 3], TaskResult.ok [4]] :
        List TaskResult).length ∧
      drain 3 [] 0 [.ok [1], .ok [2, 3], .ok [4]] =
        .capped (flatNotes (([TaskResult.ok [1], TaskResult.ok [2, 3],
          TaskResult.ok [4]] : List TaskResult).take m)) m ∧
      3 ≤ (flatNotes (([TaskResult.ok [1], TaskResult.ok [2, 3],
          TaskResult.ok [4]] : List TaskResult).take m)).length ∧
      (∀ j < m, (flatNotes (([TaskResult.ok [1], TaskResult.ok [2, 3],
          TaskResult.ok [4]] : List TaskResult).take j)).length < 3) ∧
      (runCreateDeck 3 [.ok [1], .ok [2, 3], .ok [4]] 2).cancelled + 2 =
        ([TaskResult.ok [1], TaskResult.ok [2, 3], TaskResult.ok [4]] :
          List TaskResult).length ∧
      (runCreateDeck 3 [.ok [1], .ok [2, 3], .ok [4]] 2).sessionCloses = 1 :=
  note_cap_stops_early 3 [.ok [1], .ok [2, 3], .ok [4]] 2 (by decide)
    (by decide) (by decide) (by decide) (by decide)

/-- C7: a follower leaves the wait only when rate_limit_event is set
(apart from teardown cancellation), and from the moment it blocks with k
retrievals made, its final state is decided by exactly one further
retrieval: it terminates either cancelled with k calls, or failed or
successful with exactly k + 1 calls — one retry whose outcome is
surfaced, never a loop and never a return to the coordinator. -/
theorem follower_retries_once (c c' : OrchConfig) (i k : Nat) :
    (∀ cmid, OrchStep c cmid → c.tasks[i]? = some ⟨.waiting, k⟩ →
      cmid.tasks[i]? = some ⟨.waiting, k⟩ ∨
        (c.rlEvent = true ∧ cmid.tasks[i]? = some ⟨.retrying, k⟩) ∨
        cmid.tasks[i]? = some ⟨.cancelled, k⟩) ∧
    (Relation.ReflTransGen OrchStep c c' →
      c.tasks[i]? = some ⟨.waiting, k⟩ →
      ∀ t, c'.tasks[i]? = some t → t.pc.isTerminal = true →
        t = ⟨.cancelled, k⟩ ∨ t = ⟨.failed, k + 1⟩ ∨
          ∃ n, t = ⟨.done (some n), k + 1⟩) := by
  constructor
  · intro cmid hst hi
    exact step_waiting_charac hst hi
  · intro htr hi t ht hterm
    obtain ⟨b, hb, hfb⟩ :=
      trace_followTraj htr ⟨.waiting, k⟩ hi (Or.inl rfl)
    rw [ht] at hb
    cases Option.some.inj hb
    rcases hfb with rfl | rfl | ⟨n, rfl⟩ | rfl | rfl
    · simp [TaskPC.isTerminal] at hterm
    · simp [TaskPC.isTerminal] at hterm
    · exact Or.inr (Or.inr ⟨n, rfl⟩)
    · exact Or.inr (Or.inl rfl)
    · exact Or.inl rfl

/-- Witness for C7: a follower that wakes on the set event and whose
single retry succeeds with two notes. -/
theorem follower_retries_once_witness :
    ((⟨false, true, 0, [⟨.retrying, 1⟩]⟩ :
        OrchConfig).tasks[0]? = some ⟨.waiting, 1⟩ ∨
      ((true : Bool) = true ∧ (⟨false, true, 0, [⟨.retrying, 1⟩]⟩ :
        OrchConfig).tasks[0]? = some ⟨.retrying, 1⟩) ∨
      (⟨false, true, 0, [⟨.retrying, 1⟩]⟩ :
        OrchConfig).tasks[0]? = some ⟨.cancelled, 1⟩) ∧
    ((⟨.done (some 2), 2⟩ : TaskState) = ⟨.cancelled, 1⟩ ∨
      (⟨.done (some 2), 2⟩ : TaskState) = ⟨.failed, 2⟩ ∨
      ∃ n, (⟨.done (some 2), 2⟩ : TaskState) = ⟨.done (some n), 2⟩) := by
  constructor
  · exact (follower_retries_once ⟨false, true, 0, [⟨.waiting, 1⟩]⟩
      ⟨false, true, 1, [⟨.done (some 2), 2⟩]⟩ 0 1).1
      ⟨false, true, 0, [⟨.retrying, 1⟩]⟩
      (OrchStep.followerWake false 0 1 [] []) (by decide)
  · refine (follower_retries_once ⟨false, true, 0, [⟨.waiting, 1⟩]⟩
      ⟨false, true, 1, [⟨.done (some 2), 2⟩]⟩ 0 1).2 ?_ (by decide)
      ⟨.done (some 2), 2⟩ (by decide) (by decide)
    refine Relation.ReflTransGen.head
      (OrchStep.followerWake false 0 1 [] []) ?_
    exact Relation.ReflTransGen.head
      (OrchStep.retrySuccess false true 0 1 2 [] [])
      Relation.ReflTransGen.refl

/-- C8 counterexample: the source normalization trims only the outer
whitespace while the claimed normalization collapses whitespace, so two
words that are equal after the claimed normalization (they differ only in
interior spacing) standardize differently and produce different retrieval
URLs. -/
theorem standardize_does_not_collapse :
    specNormalize "hola  mundo" = specNormalize "hola mundo" ∧
    standardize "hola  mundo" ≠ standardize "hola mundo" ∧
    translateUrl "hola  mundo" ≠ translateUrl "hola mundo" := by
  exact ⟨by decide, by decide, by decide⟩

/-- C8 amended: the Retrieval Source normalizes a word by deleting the
punctuation characters . , ; : ! ? - then trimming (not collapsing)
leading and trailing whitespace and lowercasing; the URL built by
translate uses exactly this normalized form, so words equal after this
normalization fetch the same URL. The concrete evaluation shows outer
trimming, lowercasing, punctuation removal, and that interior whitespace
is preserved. -/
theorem standardize_amended :
    (∀ w, translateUrl w =
        baseUrl ++ "/translate/" ++ standardize w ++ "?langFrom=es") ∧
    (∀ w1 w2, standardize w1 = standardize w2 →
        translateUrl w1 = translateUrl w2) ∧
    (∀ s, (removePunct s).data.all
        (fun c => !(punctChars.contains c)) = true) ∧
    standardize " Hola,  AMIGO! " = "hola  amigo" := by
  refine ⟨fun w => rfl, ?_, ?_, by decide⟩
  · intro w1 w2 hstd
    simp [translateUrl, hstd]
  · intro s
    rw [List.all_eq_true]
    intro c hc
    have hmem := List.mem_filter.mp hc
    exact hmem.2

/-- Witness for the amended C8: equal standardizations at concrete words
give the same URL. -/
theorem standardize_amended_witness :
    translateUrl "HOLA" = translateUrl " hola!" :=
  standardize_amended.2.1 "HOLA" " hola!" (by decide)

end LexiDeck
